import Mathlib

/-!
Verification of the financeiro repository's Telegram-bot conversation engine,
entry validation and pt-BR parsing/formatting utilities
(src/entries/bot/handlers.py and src/entries/forms.py), as a shallow
embedding in Lean 4.

Python strings are modelled as `List Char` / `String`; `decimal.Decimal`
values are modelled by `PyDec` (sign, coefficient, exponent — the decimal
tuple), dates by `PDate`, dictionaries of accumulated conversation fields by
the `Scratch` structure of optional fields (a `some` field corresponds to the
key being present in `context.user_data`; note the code sometimes stores the
value `None` under a present key, hence nested options).  Code that raises an
uncaught exception is modelled by `Except`/`Option` results.
-/

deriving instance DecidableEq for Except

namespace Financeiro

/-! ### Basic character and string helpers (Python str methods) -/

/-- ASCII whitespace stripped by Python `str.strip` (the unicode cases are
irrelevant to the inputs considered here). -/
def isPySpace (c : Char) : Bool :=
  c = ' ' || c = '\t' || c = '\n' || c = '\x0d' || c = '\x0b' || c = '\x0c'

/-- Python `str.strip()` on a character list. -/
def pyStrip (cs : List Char) : List Char :=
  ((cs.dropWhile isPySpace).reverse.dropWhile isPySpace).reverse

/-- Python `str.replace(a, b)` for one-character pattern and replacement. -/
def pyReplaceChar (cs : List Char) (a b : Char) : List Char :=
  cs.map (fun c => if c = a then b else c)

/-- Python `str.replace(a, "")` for a one-character pattern. -/
def pyDeleteChar (cs : List Char) (a : Char) : List Char :=
  cs.filter (fun c => c ≠ a)

/-- Python `str.strip()` producing a `String`. -/
def stripStr (s : String) : String := ⟨pyStrip s.data⟩

/-- Python `str.lower()` (ASCII). -/
def lowerStr (s : String) : String := ⟨s.data.map Char.toLower⟩

/-- Value of a decimal digit character. -/
def digitVal (c : Char) : ℕ := c.toNat - '0'.toNat

/-- Numeric value of a list of decimal digit characters. -/
def digitsVal (cs : List Char) : ℕ :=
  cs.foldl (fun a c => a * 10 + digitVal c) 0

/-- The decimal digit character for `n < 10`. -/
def digitChar (n : ℕ) : Char :=
  if n = 0 then '0' else if n = 1 then '1' else if n = 2 then '2'
  else if n = 3 then '3' else if n = 4 then '4' else if n = 5 then '5'
  else if n = 6 then '6' else if n = 7 then '7' else if n = 8 then '8'
  else '9'

/-- Fuelled base-10 rendering of a natural number (most significant digit
first); the fuel `natDigits` supplies is always sufficient. -/
def natDigitsAux : ℕ → ℕ → List Char
  | 0, _ => []
  | f + 1, n =>
    if n < 10 then [digitChar n]
    else natDigitsAux f (n / 10) ++ [digitChar (n % 10)]

/-- Base-10 rendering of a natural number, as Python `str(int)` prints it. -/
def natDigits (n : ℕ) : List Char := natDigitsAux (n + 1) n

/-- Two-digit zero-padded rendering (for fraction parts `n < 100`). -/
def pad2 (n : ℕ) : List Char :=
  if n < 10 then ['0', digitChar n] else natDigits n

/-! ### Python `decimal.Decimal` model -/

/-- A Python `Decimal`: the decimal triple (sign, coefficient, exponent) for
finite values — the value is `±c·10^e` — plus infinities and NaN (quiet and
signaling NaN are not distinguished: both raise on ordered comparison). -/
inductive PyDec where
  | fin (neg : Bool) (c : ℕ) (e : ℤ)
  | inf (neg : Bool)
  | nan
deriving DecidableEq, Repr

/-- Magnitude of a finite decimal `c·10^e` as a rational. -/
def finMag (c : ℕ) (e : ℤ) : ℚ :=
  if 0 ≤ e then ((c * 10 ^ e.toNat : ℕ) : ℚ)
  else (c : ℚ) / ((10 ^ (-e).toNat : ℕ) : ℚ)

/-- Numeric value of a `PyDec` (junk value 0 for non-finite decimals, which
is only used under finiteness hypotheses). -/
def PyDec.val : PyDec → ℚ
  | .fin neg c e => if neg then -(finMag c e) else finMag c e
  | .inf _ => 0
  | .nan => 0

/-- Python unary minus on a `Decimal` (flips the sign flag). -/
def PyDec.neg : PyDec → PyDec
  | .fin n c e => .fin (!n) c e
  | .inf n => .inf (!n)
  | .nan => .nan

/-- `d <= 0` on Python decimals: a finite `±c·10^e` is `≤ 0` iff the
coefficient is zero or the sign is negative (proved against `PyDec.val` in
`decLeZero_fin`); `none` models the `InvalidOperation` raised by an ordered
comparison with NaN. -/
def decLeZero : PyDec → Option Bool
  | .fin neg c _ => some (c = 0 || neg)
  | .inf neg => some neg
  | .nan => none

/-- Truthiness of a Python `Decimal` (`bool(d)`): zero is falsy. -/
def decTruthy : PyDec → Bool
  | .fin _ c _ => c ≠ 0
  | .inf _ => true
  | .nan => true

/-- Parse the numeric alternative of the `Decimal` string grammar
(`digits [. digits] [e [sign] digits]`, at least one digit before the
optional exponent), the input being already lowercased.  This is the first
alternative tried by CPython's parser; the coefficient is
`int(intpart + fracpart)` and the exponent is `exp - len(fracpart)`. -/
def parseDecNumber (cs : List Char) (neg : Bool) : Option PyDec :=
  let ints := cs.takeWhile Char.isDigit
  let r1 := cs.dropWhile Char.isDigit
  let fr : List Char × List Char :=
    match r1 with
    | '.' :: t => (t.takeWhile Char.isDigit, t.dropWhile Char.isDigit)
    | _ => ([], r1)
  let fracs := fr.1
  if ints = [] ∧ fracs = [] then none
  else
    match fr.2 with
    | [] => some (.fin neg (digitsVal (ints ++ fracs)) (-(fracs.length : ℤ)))
    | 'e' :: t =>
      let es : Bool × List Char :=
        match t with
        | '+' :: u => (false, u)
        | '-' :: u => (true, u)
        | _ => (false, t)
      let eds := es.2.takeWhile Char.isDigit
      let r3 := es.2.dropWhile Char.isDigit
      if eds = [] ∨ r3 ≠ [] then none
      else
        let ev : ℤ := if es.1 then -(digitsVal eds : ℤ) else (digitsVal eds : ℤ)
        some (.fin neg (digitsVal (ints ++ fracs)) (ev - fracs.length))
    | _ => none

/-- `NaN` body of the grammar: optional `s`, then `nan`, then diagnostic
digits (input already lowercased and sign-stripped). -/
def isNanBody (cs : List Char) : Bool :=
  let body := match cs with
    | 's' :: t => t
    | _ => cs
  match body with
  | 'n' :: 'a' :: 'n' :: ds => ds.all Char.isDigit
  | _ => false

/-- The optional leading sign of the grammar (`[-+]?`): `true` means a
leading minus was consumed. -/
def decSign (cs : List Char) : Bool × List Char :=
  match cs with
  | [] => (false, [])
  | c :: t =>
    if c = '+' then (false, t)
    else if c = '-' then (true, t)
    else (false, c :: t)

/-- Dispatch on the three (mutually exclusive) body alternatives of the
grammar: number, infinity, NaN. -/
def decParseSigned (sg : Bool × List Char) : Option PyDec :=
  match parseDecNumber sg.2 sg.1 with
  | some d => some d
  | none =>
    if sg.2 = ['i', 'n', 'f'] ∨ sg.2 = ['i', 'n', 'f', 'i', 'n', 'i', 't', 'y'] then
      some (.inf sg.1)
    else if isNanBody sg.2 then some .nan
    else none

/-- The `Decimal(str)` constructor: strip whitespace, drop underscores,
case-insensitive match of `[sign] (number | inf | infinity | [s]nan digits*)`;
`none` models the `InvalidOperation` the constructor raises (which
`_parse_money` catches). -/
def pyDecOfChars (cs : List Char) : Option PyDec :=
  decParseSigned (decSign (((pyStrip cs).filter (fun c => c ≠ '_')).map Char.toLower))

/-! ### Money parsing and formatting (`_parse_money`, `_format_brl`) -/

/-- The normalisation in `_parse_money`:
`raw_value.strip().replace(".", "").replace(",", ".")`. -/
def normalizeMoney (s : String) : List Char :=
  pyReplaceChar (pyDeleteChar (pyStrip s.data) '.') ',' '.'

/-- `_parse_money`: `.ok none` is the `return None` paths (constructor
exception caught, or `parsed <= 0`); `.error ()` is the uncaught
`InvalidOperation` raised by `parsed <= 0` when the parsed value is a NaN —
that comparison sits outside the `try` block. -/
def parseMoney (s : String) : Except Unit (Option PyDec) :=
  match pyDecOfChars (normalizeMoney s) with
  | none => .ok none
  | some d =>
    match decLeZero d with
    | none => .error ()
    | some true => .ok none
    | some false => .ok (some d)

/-- The number of hundredths in `c·10^e`, rounded half-even: the rescale to
exponent `-2` that `Decimal.__format__` performs for `.2f`.  For `e ≥ -2`
this is exact; otherwise the coefficient is divided by `10^(-e-2)` with
ROUND_HALF_EVEN. -/
def fixed2Cents (c : ℕ) (e : ℤ) : ℕ :=
  if 0 ≤ e + 2 then c * 10 ^ (e + 2).toNat
  else
    -- divide the coefficient by `D = 10^(-e-2)`, rounding the quotient
    -- half-even on the remainder
    c / 10 ^ (-(e + 2)).toNat +
      (if 10 ^ (-(e + 2)).toNat < 2 * (c % 10 ^ (-(e + 2)).toNat) then 1
       else if 2 * (c % 10 ^ (-(e + 2)).toNat) < 10 ^ (-(e + 2)).toNat then 0
       else c / 10 ^ (-(e + 2)).toNat % 2)

/-- `f"{value:.2f}"` on a Python decimal: fixed two decimal places
(half-even), sign taken from the sign flag (so `-0` keeps its minus);
infinities and NaN print their names. -/
def formatFixed2Chars : PyDec → List Char
  | .nan => ['N', 'a', 'N']
  | .inf neg => (if neg then ['-'] else []) ++ "Infinity".data
  | .fin neg c e =>
    let n := fixed2Cents c e
    (if neg then ['-'] else []) ++ natDigits (n / 100) ++ ['.'] ++ pad2 (n % 100)

/-- `_format_brl`: `f"{value:.2f}".replace(".", ",")`. -/
def formatBRL (d : PyDec) : String := ⟨pyReplaceChar (formatFixed2Chars d) '.' ','⟩

/-! ### Dates and `_parse_date` -/

/-- A calendar date as `datetime.date` carries it. -/
structure PDate where
  y : ℕ
  m : ℕ
  d : ℕ
deriving DecidableEq, Repr

/-- Gregorian leap year. -/
def isLeap (y : ℕ) : Bool := y % 4 = 0 && (y % 100 ≠ 0 || y % 400 = 0)

/-- Days in a month. -/
def daysInMonth (y m : ℕ) : ℕ :=
  if m = 2 then (if isLeap y then 29 else 28)
  else if m = 4 ∨ m = 6 ∨ m = 9 ∨ m = 11 then 30
  else 31

/-- The checks of the `datetime.date` constructor (`MINYEAR = 1`,
`MAXYEAR = 9999`); `strptime` ends by calling this constructor, which raises
`ValueError` on a non-existent calendar date. -/
def mkValidDate (y m d : ℕ) : Option PDate :=
  if 1 ≤ y ∧ y ≤ 9999 ∧ 1 ≤ m ∧ m ≤ 12 ∧ 1 ≤ d ∧ d ≤ daysInMonth y m then
    some ⟨y, m, d⟩
  else none

/-- Read a 1–2 digit field as `strptime`'s `%d`/`%m` directives do: the
leading digit run must have length 1 or 2, and the value must lie in
`1..hi` (the directive regexes `3[01]|[12]\d|0[1-9]|[1-9]` and
`1[0-2]|0[1-9]|[1-9]` accept exactly those runs, with backtracking unable to
rescue a longer run because the following literal is not a digit). -/
def readField2 (hi : ℕ) (cs : List Char) : Option (ℕ × List Char) :=
  let ds := cs.takeWhile Char.isDigit
  let rest := cs.dropWhile Char.isDigit
  if ds.length = 0 ∨ 2 < ds.length then none
  else
    let v := digitsVal ds
    if 1 ≤ v ∧ v ≤ hi then some (v, rest) else none

/-- Read the exactly-four-digit year field (`%Y` is `\d\d\d\d`). -/
def readYear4 (cs : List Char) : Option (ℕ × List Char) :=
  let ds := cs.takeWhile Char.isDigit
  let rest := cs.dropWhile Char.isDigit
  if ds.length = 4 then some (digitsVal ds, rest) else none

/-- Expect a literal character. -/
def readLit (c : Char) (cs : List Char) : Option (List Char) :=
  match cs with
  | x :: t => if x = c then some t else none
  | [] => none

/-- `datetime.strptime(candidate, "%d/%m/%Y").date()` (full match
required). -/
def strptimeDMY (cs : List Char) : Option PDate :=
  match readField2 31 cs with
  | none => none
  | some (d, r1) =>
    match readLit '/' r1 with
    | none => none
    | some r2 =>
      match readField2 12 r2 with
      | none => none
      | some (m, r3) =>
        match readLit '/' r3 with
        | none => none
        | some r4 =>
          match readYear4 r4 with
          | none => none
          | some (y, r5) => if r5 = [] then mkValidDate y m d else none

/-- `datetime.strptime(candidate, "%Y-%m-%d").date()` (full match
required). -/
def strptimeYMD (cs : List Char) : Option PDate :=
  match readYear4 cs with
  | none => none
  | some (y, r1) =>
    match readLit '-' r1 with
    | none => none
    | some r2 =>
      match readField2 12 r2 with
      | none => none
      | some (m, r3) =>
        match readLit '-' r3 with
        | none => none
        | some r4 =>
          match readField2 31 r4 with
          | none => none
          | some (d, r5) => if r5 = [] then mkValidDate y m d else none

/-- `_parse_date`: strip, then try `"%d/%m/%Y"` and `"%Y-%m-%d"` in that
order, returning the first success, else `None`. -/
def parseDate (s : String) : Option PDate :=
  match strptimeDMY (pyStrip s.data) with
  | some d => some d
  | none => strptimeYMD (pyStrip s.data)

/-- An existing calendar date within `datetime.date`'s year range. -/
def validPDate (d : PDate) : Bool :=
  1 ≤ d.y && d.y ≤ 9999 && 1 ≤ d.m && d.m ≤ 12 && 1 ≤ d.d &&
    d.d ≤ daysInMonth d.y d.m

/-- The tail of an `int()` digit run after its first digit: digits with
PEP 515 single underscores allowed strictly between digits (`"1_2"` is
fine, `"1__2"`, `"1_"` are not). -/
def intDigitRun : List Char → Bool
  | [] => true
  | c :: rest =>
    if c = '_' then
      match rest with
      | [] => false
      | c2 :: rest2 => c2.isDigit && intDigitRun rest2
    else c.isDigit && intDigitRun rest

/-- Python `int(str)`: strip whitespace, optional sign, then a non-empty
digit run with PEP 515 single underscores between digits (ASCII digits, like
the rest of the model); the underscores are dropped before reading the
value. -/
def pyInt (s : String) : Option ℤ :=
  let cs := pyStrip s.data
  let sg : Bool × List Char :=
    match cs with
    | '+' :: t => (false, t)
    | '-' :: t => (true, t)
    | _ => (false, cs)
  match sg.2 with
  | [] => none
  | c :: rest =>
    if c.isDigit && intDigitRun rest then
      some (if sg.1 then
        -(digitsVal ((c :: rest).filter (fun x => x ≠ '_')) : ℤ)
      else (digitsVal ((c :: rest).filter (fun x => x ≠ '_')) : ℤ))
    else none

/-! ### Sign convention and persisted payload
(`_signed_amount`, `_entry_payload`) -/

/-- `_signed_amount`: negate the magnitude when the kind is `"pagando"`
(paying), keep it otherwise. -/
def signedAmount (kind : String) (amount : PyDec) : PyDec :=
  if kind = "pagando" then amount.neg else amount

/-- The payload `_entry_payload` assembles for `EntryForm`.  The source
serialises the decimals with `str` and the dates with `isoformat` before the
form parses them back; that round trip is value-preserving, so the payload is
modelled with the values themselves. -/
structure Payload where
  description : String
  category : ℤ
  cost_center : Option ℤ
  forma_pagamento : String
  due_date : PDate
  original_value : PyDec
  received_value : Option PyDec
  payment_date : Option PDate
deriving DecidableEq, Repr

/-! ### `EntryForm` validation (src/entries/forms.py) -/

/-- The `forma_pagamento` choices, `(value, label)` pairs, as declared by
migration 0002 (`Entry.PaymentMethod.choices`). -/
def pmChoices : List (String × String) :=
  [("PIX", "PIX"), ("Espécie", "Espécie"), ("Crédito", "Crédito"),
   ("Débito", "Débito")]

/-- Django's `DecimalValidator(max_digits=12, decimal_places=2)` on the
decimal triple of the field value (`True` = passes): infinities and NaN are
invalid, and the digit/decimal counts are computed from the coefficient
length and exponent exactly as the validator does. -/
def decFieldOk : PyDec → Bool
  | .nan => false
  | .inf _ => false
  | .fin _ c e =>
    let L := (natDigits c).length
    let digits := if 0 ≤ e then (if c = 0 then L else L + e.toNat)
      else if L < (-e).toNat then (-e).toNat else L
    let decimals := if 0 ≤ e then 0 else (-e).toNat
    digits ≤ 12 && decimals ≤ 2 && digits - decimals ≤ 12 - 2

/-- Whether a finite decimal is zero (`original == 0` in
`clean_original_value`). -/
def decIsZero : PyDec → Bool
  | .fin _ c _ => c = 0
  | _ => false

/-- `0 < d` on the decimal triple: positive sign and non-zero coefficient
(proved equal to `decide (0 < d.val)` for finite decimals in
`decGtZero_fin`; the NaN case raises in Python but is unreachable where this
is used, after the `DecimalValidator` has rejected non-finite values). -/
def decGtZero : PyDec → Bool
  | .fin neg c _ => !neg && c ≠ 0
  | .inf neg => !neg
  | .nan => false

def msgRequired : String := "Este campo é obrigatório."
def msgInvalidChoice : String :=
  "Faça uma escolha válida. Sua escolha não é uma das disponíveis."
def msgInvalidNumber : String := "Informe um número."
def msgZeroOriginal : String := "O valor original não pode ser zero."
def msgSignMismatch : String := "Use o mesmo sinal do valor original."
def msgSettleAmount : String :=
  "Informe o valor recebido/pago ao definir a data de pagamento."

/-- `EntryForm` validation over a payload: field-level cleaning in field
order (required/choice checks, the `DecimalValidator`, then
`clean_original_value` and `clean_received_value`), followed by the form's
`clean` which adds the settle-amount error.  Returns the `(field, message)`
errors; an empty list means `form.is_valid()`.  `cats`/`ccs` are the
`Category`/`CostCenter` rows the `ModelChoiceField`s validate against. -/
def entryFormErrors (cats ccs : List (ℤ × String)) (p : Payload) :
    List (String × String) :=
  let eDesc := if stripStr p.description = "" then [("description", msgRequired)] else []
  let eCat := if (cats.find? (fun c => c.1 = p.category)).isSome then []
    else [("category", msgInvalidChoice)]
  let eCC := match p.cost_center with
    | none => []
    | some cc => if (ccs.find? (fun c => c.1 = cc)).isSome then []
      else [("cost_center", msgInvalidChoice)]
  let eFP := if (pmChoices.find? (fun c => c.1 = p.forma_pagamento)).isSome then []
    else [("forma_pagamento", msgInvalidChoice)]
  let ovOk := decFieldOk p.original_value
  let ovZero := ovOk && decIsZero p.original_value
  let eOV := (if ovOk then [] else [("original_value", msgInvalidNumber)]) ++
    (if ovZero then [("original_value", msgZeroOriginal)] else [])
  -- `cleaned_data["original_value"]` is present iff its field and
  -- `clean_original_value` both succeeded.
  let ovCleaned : Option PyDec :=
    if ovOk && !decIsZero p.original_value then some p.original_value else none
  let rvRes : Option PyDec × List (String × String) :=
    match p.received_value with
    | none => (none, [])
    | some r =>
      if decFieldOk r then
        match ovCleaned with
        | some o =>
          -- `original is not None and received and (original > 0) != (received > 0)`
          if decTruthy r && (decGtZero o != decGtZero r) then
            (none, [("received_value", msgSignMismatch)])
          else (some r, [])
        | none => (some r, [])
      else (none, [("received_value", msgInvalidNumber)])
  -- `clean`: `if payment_date and not received_value`
  let rvTruthy := match rvRes.1 with
    | none => false
    | some r => decTruthy r
  let eClean := if p.payment_date.isSome && !rvTruthy then
    [("received_value", msgSettleAmount)] else []
  eDesc ++ eCat ++ eCC ++ eFP ++ eOV ++ rvRes.2 ++ eClean

/-! ### The conversation engine (the `ConversationHandler` wizard) -/

/-- The thirteen conversation states `STATE_KIND .. STATE_CONFIRMATION`. -/
inductive ConvState where
  | kind | description | category | costCenter | paymentMethod
  | dueDateToday | dueDate | originalValue | settledCash | settled
  | paymentDate | receivedValue | confirmation
deriving DecidableEq, Repr

/-- The per-conversation `context.user_data` dictionary.  A `some` field
means the key is present; for `cost_center`, `cost_center_label`,
`payment_date` and `received_value` the code can store `None` under a
present key, hence the nested options. -/
structure Scratch where
  kind : Option String := none
  description : Option String := none
  category : Option ℤ := none
  category_label : Option String := none
  cost_center : Option (Option ℤ) := none
  cost_center_label : Option (Option String) := none
  forma_pagamento : Option String := none
  forma_pagamento_label : Option String := none
  due_date : Option PDate := none
  original_value : Option PyDec := none
  is_settled : Option Bool := none
  payment_date : Option (Option PDate) := none
  received_value : Option (Option PyDec) := none
deriving DecidableEq, Repr

/-- `user_data.clear()` / a fresh dictionary. -/
def emptyScratch : Scratch := {}

/-- The fixed environment a step runs against: the Ledger-Store listings
(ordered `(pk, description)` rows), today's date, and the configured
allow-list `AUTHORIZED_IDS`. -/
structure Env where
  categories : List (ℤ × String)
  costCenters : List (ℤ × String)
  today : PDate
  authorized : List ℤ

/-- `_is_authorized`: `not AUTHORIZED_IDS or user_id in AUTHORIZED_IDS`. -/
def isAuthorized (env : Env) (uid : ℤ) : Bool :=
  env.authorized.isEmpty || env.authorized.contains uid

/-- One inbound interaction: the `/start`/`/novo` entry commands (carrying
the caller id checked by the access guard), the `/cancelar`/`/cancel`
fallback, a button press with its callback data, or a free-text message. -/
inductive Inp where
  | cmdStart (uid : ℤ)
  | cmdCancel
  | cb (data : String)
  | msg (text : String)
deriving DecidableEq, Repr

/-- Result of handling one interaction: the next conversation state (`none`
is `ConversationHandler.END` / no active conversation), the user_data
dictionary afterwards, and the reply text sent (if any). -/
structure StepRes where
  state : Option ConvState
  data : Scratch
  reply : Option String
deriving DecidableEq, Repr

/-- Split callback data at the first `:` — the combination of the
handler-registration patterns (`^kind:`, `^cat:`, …) and the handlers'
`query.data.split(":", maxsplit=1)`.  `none` means no colon, so no
callback pattern can match. -/
def cbSplit (data : String) : Option (String × String) :=
  let ns := data.data.takeWhile (fun c => c ≠ ':')
  match data.data.dropWhile (fun c => c ≠ ':') with
  | ':' :: rest => some (⟨ns⟩, ⟨rest⟩)
  | _ => none

def msgNotAuthorized : String := "Seu usuário não está autorizado para este bot."
def msgStartPrompt : String :=
  "Vamos cadastrar um lançamento.\nVocê está pagando ou recebendo?\nUse /lista para ver os últimos 10 lançamentos."
def msgAskDescription : String := "Informe a descrição do lançamento:"
def msgEmptyDescription : String := "Descrição não pode ficar vazia. Tente novamente."
def msgNoCategories : String :=
  "Nenhuma categoria cadastrada. Cadastre uma categoria no sistema web e tente novamente."
def msgSelectCategory : String := "Selecione a categoria:"
def msgInvalidCategory : String := "Categoria inválida. Tente novamente."
def msgSelectCostCenter : String := "Selecione o centro de custo:"
def msgInvalidCostCenter : String := "Centro de custo inválido. Tente novamente."
def msgChoosePayment : String := "Escolha a forma de pagamento:"
def msgInvalidPayment : String := "Forma de pagamento inválida. Tente novamente."
def msgDueToday : String := "O vencimento foi hoje?"
def msgAskDueDate : String := "Informe a data de vencimento (DD/MM/AAAA):"
def msgInvalidDate : String := "Data inválida. Use DD/MM/AAAA."
def msgAskValue : String := "Informe o valor (apenas número positivo, ex: 250,90):"
def msgInvalidValue : String := "Valor inválido. Envie um número positivo."
def msgSettledCash : String := "Foi liquidado à vista?"
def msgSettledQ : String := "Esse lançamento foi liquidado?"
def msgAskPaymentDate : String := "Informe a data do pagamento/recebimento (DD/MM/AAAA):"
def msgAskReceived : String :=
  "Informe o valor liquidado (positivo). Você pode enviar \x27mesmo\x27 para usar o valor original."
def msgInvalidReceived : String := "Valor inválido. Envie um número positivo ou \x27mesmo\x27."
def msgCancelled : String := "Cadastro cancelado."
def msgCancelledConfirm : String := "Cadastro cancelado. Use /novo para iniciar novamente."

/-- `date.strftime("%d/%m/%Y")` (zero-padded day and month). -/
def fmtDMY (d : PDate) : List Char :=
  pad2 d.d ++ ['/'] ++ pad2 d.m ++ ['/'] ++ natDigits d.y

/-- The `_summary` confirmation text.  The source indexes `user_data`
directly, raising `KeyError` when a required field is missing (`none` here);
`cost_center_label` and `payment_date` are read with `.get`/`or`
fallbacks. -/
def summaryText (s : Scratch) : Option String :=
  match s.kind, s.description, s.category_label, s.forma_pagamento_label,
      s.due_date, s.original_value with
  | some k, some desc, some catl, some fpl, some dd, some ov =>
    let kindLabel := if k = "recebendo" then "Recebimento" else "Pagamento"
    -- `user_data.get("cost_center_label") or "Sem centro de custo"`:
    -- an absent key, a stored `None` and an empty label all fall back.
    let ccl := match s.cost_center_label with
      | some (some l) => if l = "" then "Sem centro de custo" else l
      | _ => "Sem centro de custo"
    let pdStr := match s.payment_date with
      | some (some pd) => String.mk (fmtDMY pd)
      | _ => "Em aberto"
    some ("Confirma este lançamento?\n\nTipo: " ++ kindLabel ++
      "\nDescrição: " ++ desc ++
      "\nCategoria: " ++ catl ++
      "\nCentro de custo: " ++ ccl ++
      "\nForma de pagamento: " ++ fpl ++
      "\nVencimento: " ++ String.mk (fmtDMY dd) ++
      "\nValor: R$ " ++ String.mk (formatFixed2Chars ov) ++
      "\nPagamento: " ++ pdStr)
  | _, _, _, _, _, _ => none

/-- `_entry_payload` over the scratch dictionary: `none` models the
`KeyError` raised when a required key is missing (the handler then dies
before doing anything else). -/
def entryPayload (s : Scratch) : Option Payload :=
  match s.kind, s.original_value, s.description, s.category,
      s.forma_pagamento, s.due_date with
  | some k, some ov, some desc, some cat, some fp, some dd =>
    some { description := desc
           category := cat
           cost_center := s.cost_center.getD none
           forma_pagamento := fp
           due_date := dd
           original_value := signedAmount k ov
           received_value := (s.received_value.getD none).map (signedAmount k)
           payment_date := s.payment_date.getD none }
  | _, _, _, _, _, _ => none

/-- The failure report of `_confirm_handler`. -/
def errorReport (errs : List (String × String)) : String :=
  "Não foi possível salvar o lançamento:" ++
    String.join (errs.map (fun e => "\n- " ++ e.1 ++ ": " ++ e.2))

/-- The success report of `_confirm_handler` (the saved entry's description
is the form-cleaned, i.e. stripped, one). -/
def successReport (desc : String) : String :=
  "Lançamento \x27" ++ desc ++ "\x27 criado com sucesso. Use /novo para cadastrar outro."

/-- The payment-method options the bot offers: `(index, value, label)` over
`Entry.PaymentMethod.choices` (migration 0002). -/
def pmOptions : List (ℕ × String × String) :=
  (List.range pmChoices.length).zip pmChoices

/-- An unflagged interaction (no registered handler matched, or the handler
raised before mutating anything): state and scratch unchanged, nothing
sent. -/
def stay (st : ConvState) (s : Scratch) : StepRes := ⟨some st, s, none⟩

/-- A re-prompt: same state, scratch untouched, error text sent. -/
def reprompt (st : ConvState) (s : Scratch) (m : String) : StepRes :=
  ⟨some st, s, some m⟩

/-- Handle a button press (`callback_query.data = data`) in state `st`.
Each state only has its own `CallbackQueryHandler` pattern registered, so a
non-matching namespace (or a text message) leaves the conversation where it
is.  A handler that raises (`KeyError` on a missing scratch key, modelled by
the `none` matches) leaves the state unchanged with whatever was already
mutated. -/
def stepCb (env : Env) (st : ConvState) (s : Scratch) (ns sel : String) :
    StepRes :=
  match st with
  | .kind =>
    if ns = "kind" then
      ⟨some .description, { s with kind := some sel }, some msgAskDescription⟩
    else stay st s
  | .category =>
    if ns = "cat" then
      match pyInt sel with
      | none => reprompt .category s msgInvalidCategory
      | some cid =>
        match env.categories.find? (fun c => c.1 = cid) with
        | none => reprompt .category s msgInvalidCategory
        | some cat =>
          ⟨some .costCenter,
            { s with category := some cid, category_label := some cat.2 },
            some msgSelectCostCenter⟩
    else stay st s
  | .costCenter =>
    if ns = "cc" then
      if sel = "none" then
        ⟨some .paymentMethod,
          { s with cost_center := some none, cost_center_label := some none },
          some msgChoosePayment⟩
      else
        match pyInt sel with
        | none => reprompt .costCenter s msgInvalidCostCenter
        | some ccid =>
          -- NOTE: unlike `_category_handler`, the source stores the id and
          -- proceeds even when it is not in the listing (label `None`).
          let chosen := env.costCenters.find? (fun c => c.1 = ccid)
          ⟨some .paymentMethod,
            { s with cost_center := some (some ccid),
                     cost_center_label := some (chosen.map (fun c => c.2)) },
            some msgChoosePayment⟩
    else stay st s
  | .paymentMethod =>
    if ns = "pm" then
      match pyInt sel with
      | none => reprompt .paymentMethod s msgInvalidPayment
      | some idx =>
        match pmOptions.find? (fun o => (o.1 : ℤ) = idx) with
        | none => reprompt .paymentMethod s msgInvalidPayment
        | some o =>
          ⟨some .dueDateToday,
            { s with forma_pagamento := some o.2.1,
                     forma_pagamento_label := some o.2.2 },
            some msgDueToday⟩
    else stay st s
  | .dueDateToday =>
    if ns = "due_today" then
      if sel = "sim" then
        ⟨some .originalValue, { s with due_date := some env.today }, some msgAskValue⟩
      else ⟨some .dueDate, s, some msgAskDueDate⟩
    else stay st s
  | .settledCash =>
    if ns = "settled_cash" then
      if sel = "sim" then
        match s.due_date with
        | none => stay st s   -- KeyError before any mutation
        | some dd =>
          match s.original_value with
          | none => stay st { s with payment_date := some (some dd) }
          | some ov =>
            let s' := { s with payment_date := some (some dd),
                               received_value := some (some ov) }
            match summaryText s' with
            | some t => ⟨some .confirmation, s', some t⟩
            | none => stay st s'   -- KeyError inside `_summary`
      else ⟨some .settled, s, some msgSettledQ⟩
    else stay st s
  | .settled =>
    if ns = "settled" then
      let isSettled := sel = "sim"
      let s1 := { s with is_settled := some isSettled }
      if isSettled then ⟨some .paymentDate, s1, some msgAskPaymentDate⟩
      else
        let s2 := { s1 with payment_date := some none,
                            received_value := some none }
        match summaryText s2 with
        | some t => ⟨some .confirmation, s2, some t⟩
        | none => stay st s2
    else stay st s
  | .confirmation =>
    if ns = "confirm" then
      if sel = "cancel" then ⟨none, emptyScratch, some msgCancelledConfirm⟩
      else
        match entryPayload s with
        | none => stay st s   -- KeyError building the payload
        | some p =>
          let errs := entryFormErrors env.categories env.costCenters p
          if errs.isEmpty then
            -- success: report, then `user_data.clear()`, END
            ⟨none, emptyScratch, some (successReport (stripStr p.description))⟩
          else
            -- failure: report the field errors and END;
            -- NOTE: the source does NOT clear `user_data` on this path.
            ⟨none, s, some (errorReport errs)⟩
    else stay st s
  | _ => stay st s

/-- Handle a free-text message in state `st` (only the five text states have
a `MessageHandler` registered). -/
def stepMsg (env : Env) (st : ConvState) (s : Scratch) (t : String) : StepRes :=
  match st with
  | .description =>
    let d := stripStr t
    if d = "" then reprompt .description s msgEmptyDescription
    else
      let s' := { s with description := some d }
      if env.categories.isEmpty then
        -- terminal failure: END without clearing the scratch
        ⟨none, s', some msgNoCategories⟩
      else ⟨some .category, s', some msgSelectCategory⟩
  | .dueDate =>
    match parseDate t with
    | none => reprompt .dueDate s msgInvalidDate
    | some dd => ⟨some .originalValue, { s with due_date := some dd }, some msgAskValue⟩
  | .originalValue =>
    match parseMoney t with
    | .error _ => stay st s   -- uncaught InvalidOperation: state unchanged
    | .ok none => reprompt .originalValue s msgInvalidValue
    | .ok (some v) =>
      ⟨some .settledCash, { s with original_value := some v }, some msgSettledCash⟩
  | .paymentDate =>
    match parseDate t with
    | none => reprompt .paymentDate s msgInvalidDate
    | some pd =>
      ⟨some .receivedValue, { s with payment_date := some (some pd) },
        some msgAskReceived⟩
  | .receivedValue =>
    let raw := lowerStr (stripStr t)
    if raw = "mesmo" then
      match s.original_value with
      | none => stay st s   -- KeyError
      | some ov =>
        let s' := { s with received_value := some (some ov) }
        match summaryText s' with
        | some txt => ⟨some .confirmation, s', some txt⟩
        | none => stay st s'
    else
      match parseMoney t with
      | .error _ => stay st s
      | .ok none => reprompt .receivedValue s msgInvalidReceived
      | .ok (some v) =>
        let s' := { s with received_value := some (some v) }
        match summaryText s' with
        | some txt => ⟨some .confirmation, s', some txt⟩
        | none => stay st s'
  | _ => stay st s

/-- One interaction against the whole `ConversationHandler` (entry points
with `allow_reentry=True`, the per-state handler maps, and the cancel
fallbacks).  `cur = none` means no conversation is active. -/
def convStep (env : Env) (cur : Option ConvState) (s : Scratch) (i : Inp) :
    StepRes :=
  match i with
  | .cmdStart uid =>
    -- `_start_conversation`: guard first, then `user_data.clear()`
    if isAuthorized env uid then ⟨some .kind, emptyScratch, some msgStartPrompt⟩
    else ⟨none, s, some msgNotAuthorized⟩
  | .cmdCancel =>
    match cur with
    | none => ⟨none, s, none⟩
    | some _ => ⟨none, emptyScratch, some msgCancelled⟩
  | .cb data =>
    match cur with
    | none => ⟨none, s, none⟩
    | some st =>
      match cbSplit data with
      | none => stay st s
      | some nsSel => stepCb env st s nsSel.1 nsSel.2
  | .msg t =>
    match cur with
    | none => ⟨none, s, none⟩
    | some st => stepMsg env st s t

/-! ### Concrete fixtures used by witnesses and counterexamples -/

/-- A store with one category, no cost centers. -/
def envNoCC : Env := ⟨[(1, "Moradia")], [], ⟨2024, 5, 10⟩, []⟩

/-- A scratch for a paying entry of magnitude 5 with received magnitude 3. -/
def scratchPaying : Scratch :=
  { kind := some "pagando", description := some "x", category := some 1,
    forma_pagamento := some "PIX", due_date := some ⟨2024, 1, 2⟩,
    original_value := some (PyDec.fin false 5 0),
    received_value := some (some (PyDec.fin false 3 0)) }

/-- The payload `_entry_payload` derives from `scratchPaying`. -/
def payloadPaying : Payload :=
  { description := "x", category := 1, cost_center := none,
    forma_pagamento := "PIX", due_date := ⟨2024, 1, 2⟩,
    original_value := PyDec.fin true 5 0,
    received_value := some (PyDec.fin true 3 0),
    payment_date := none }

/-- A payload with positive `original_value` and a present zero
`received_value` (positivity differs), which the validator accepts. -/
def payloadZeroReceived : Payload :=
  { description := "x", category := 1, cost_center := none,
    forma_pagamento := "PIX", due_date := ⟨2024, 1, 1⟩,
    original_value := PyDec.fin false 5 0,
    received_value := some (PyDec.fin false 0 0),
    payment_date := none }

/-- A payload whose `original_value` is exactly zero. -/
def payloadZeroOriginal : Payload :=
  { description := "x", category := 1, cost_center := none,
    forma_pagamento := "PIX", due_date := ⟨2024, 1, 1⟩,
    original_value := PyDec.fin false 0 0,
    received_value := none,
    payment_date := none }

/-- A payload with a genuine sign mismatch (+5 original, −3 received). -/
def payloadMismatch : Payload :=
  { description := "x", category := 1, cost_center := none,
    forma_pagamento := "PIX", due_date := ⟨2024, 1, 1⟩,
    original_value := PyDec.fin false 5 0,
    received_value := some (PyDec.fin true 3 0),
    payment_date := none }

/-- A scratch ready at the cash-settlement step (all earlier fields
collected). -/
def scratchAtCash : Scratch :=
  { kind := some "recebendo", description := some "Aluguel",
    category := some 1, category_label := some "Moradia",
    cost_center := some none, cost_center_label := some none,
    forma_pagamento := some "PIX", forma_pagamento_label := some "PIX",
    due_date := some ⟨2024, 5, 10⟩,
    original_value := some (PyDec.fin false 25090 (-2)) }

/-- `scratchAtCash` after the cash-settlement shortcut fires. -/
def scratchAtCashDone : Scratch :=
  { scratchAtCash with
      payment_date := some (some ⟨2024, 5, 10⟩),
      received_value := some (some (PyDec.fin false 25090 (-2))) }

/-- `emptyScratch` after the cost-center handler accepted the unknown id
7. -/
def scratchCC7 : Scratch :=
  { emptyScratch with cost_center := some (some 7), cost_center_label := some none }

/-- The payload `_entry_payload` derives from `scratchGood`. -/
def payloadGood : Payload :=
  { description := "Aluguel", category := 1, cost_center := some 7,
    forma_pagamento := "PIX", due_date := ⟨2024, 5, 10⟩,
    original_value := PyDec.fin false 25090 (-2),
    received_value := none, payment_date := none }

/-! ### Helper lemmas: decimal values -/

theorem finMag_nonneg (c : ℕ) (e : ℤ) : 0 ≤ finMag c e := by
  unfold finMag
  split
  · exact_mod_cast Nat.zero_le _
  · positivity

theorem finMag_eq_zero (e : ℤ) : finMag 0 e = 0 := by
  unfold finMag
  split <;> simp

theorem finMag_pos (c : ℕ) (e : ℤ) (hc : c ≠ 0) : 0 < finMag c e := by
  unfold finMag
  split
  · have : 0 < c * 10 ^ e.toNat := Nat.mul_pos (Nat.pos_of_ne_zero hc) (Nat.pos_pow_of_pos _ (by norm_num))
    exact_mod_cast this
  · apply div_pos
    · exact_mod_cast Nat.pos_of_ne_zero hc
    · have : (0 : ℕ) < 10 ^ (-e).toNat := Nat.pos_pow_of_pos _ (by norm_num)
      exact_mod_cast this

theorem val_neg (d : PyDec) : d.neg.val = -d.val := by
  cases d with
  | fin neg c e => cases neg <;> simp [PyDec.neg, PyDec.val]
  | inf neg => simp [PyDec.neg, PyDec.val]
  | nan => simp [PyDec.neg, PyDec.val]

theorem decLeZero_fin (neg : Bool) (c : ℕ) (e : ℤ) :
    decLeZero (.fin neg c e) = some (decide ((PyDec.fin neg c e).val ≤ 0)) := by
  unfold decLeZero
  cases neg with
  | true =>
    simp [PyDec.val]
    exact finMag_nonneg c e
  | false =>
    simp [PyDec.val]
    constructor
    · rintro rfl
      simp [finMag_eq_zero]
    · intro h
      by_contra hc
      exact absurd h (not_le.mpr (finMag_pos c e hc))

theorem decGtZero_fin (neg : Bool) (c : ℕ) (e : ℤ) :
    decGtZero (.fin neg c e) = decide (0 < (PyDec.fin neg c e).val) := by
  cases neg with
  | true =>
    have h : ¬ (0 < -finMag c e) :=
      not_lt.mpr (neg_nonpos_of_nonneg (finMag_nonneg c e))
    simp [decGtZero, PyDec.val, h]
  | false =>
    by_cases hc : c = 0
    · subst hc
      simp [decGtZero, PyDec.val, finMag_eq_zero]
    · simp [decGtZero, PyDec.val, hc, finMag_pos c e hc]

/-- Successful money parses are either `+Infinity` or a positive finite
decimal of positive coefficient. -/
theorem parseMoney_ok_shape (s : String) (d : PyDec)
    (h : parseMoney s = .ok (some d)) :
    d = .inf false ∨ ∃ c e, d = .fin false c e ∧ c ≠ 0 := by
  unfold parseMoney at h
  cases hp : pyDecOfChars (normalizeMoney s) with
  | none => rw [hp] at h; exact absurd h (by simp)
  | some d' =>
    rw [hp] at h
    cases d' with
    | fin neg c e =>
      simp only [decLeZero] at h
      cases hz : (decide (c = 0) || neg) with
      | true => rw [hz] at h; exact absurd h (by simp)
      | false =>
        rw [hz] at h
        simp only [Except.ok.injEq, Option.some.injEq] at h
        simp only [Bool.or_eq_false_iff, decide_eq_false_iff_not] at hz
        exact Or.inr ⟨c, e, h.symm ▸ by rw [hz.2], hz.1⟩
    | inf neg =>
      simp only [decLeZero] at h
      cases neg with
      | true => exact absurd h (by simp)
      | false =>
        simp only [Except.ok.injEq, Option.some.injEq] at h
        exact Or.inl h.symm
    | nan => exact absurd h (by simp [decLeZero])

theorem parseMoney_ok_pos (s : String) (d : PyDec)
    (h : parseMoney s = .ok (some d)) :
    0 < d.val ∨ d = .inf false := by
  rcases parseMoney_ok_shape s d h with h1 | ⟨c, e, rfl, hc⟩
  · exact Or.inr h1
  · left
    simpa [PyDec.val] using finMag_pos c e hc

/-! ### Helper lemmas: decimal digit rendering -/

/-- A character produced by the digit renderer. -/
def IsDigitCharOf (c : Char) : Prop := ∃ k, k < 10 ∧ c = digitChar k

theorem digitChar_props (k : ℕ) (hk : k < 10) :
    Char.isDigit (digitChar k) = true ∧ digitVal (digitChar k) = k ∧
    (digitChar k).toLower = digitChar k ∧ isPySpace (digitChar k) = false ∧
    digitChar k ≠ '.' ∧ digitChar k ≠ ',' ∧ digitChar k ≠ '_' ∧
    digitChar k ≠ '+' ∧ digitChar k ≠ '-' := by
  interval_cases k <;> exact ⟨by decide, by decide, by decide, by decide,
    by decide, by decide, by decide, by decide, by decide⟩

theorem digitsVal_append_single (xs : List Char) (c : Char) :
    digitsVal (xs ++ [c]) = digitsVal xs * 10 + digitVal c := by
  simp [digitsVal, List.foldl_append]

theorem digitsVal_shift (B : List Char) :
    ∀ a : ℕ, B.foldl (fun a c => a * 10 + digitVal c) a =
      a * 10 ^ B.length + digitsVal B := by
  induction B with
  | nil => intro a; simp [digitsVal]
  | cons c B ih =>
    intro a
    have h0 : digitsVal (c :: B) = digitVal c * 10 ^ B.length + digitsVal B := by
      show List.foldl _ (0 * 10 + digitVal c) B = _
      rw [ih]
      ring_nf
    show List.foldl _ (a * 10 + digitVal c) B = _
    rw [ih, h0, List.length_cons]
    ring

theorem digitsVal_append (A B : List Char) :
    digitsVal (A ++ B) = digitsVal A * 10 ^ B.length + digitsVal B := by
  show List.foldl _ 0 (A ++ B) = _
  rw [List.foldl_append]
  exact digitsVal_shift B (digitsVal A)

theorem natDigitsAux_spec : ∀ f n : ℕ, n < f →
    digitsVal (natDigitsAux f n) = n ∧ natDigitsAux f n ≠ [] ∧
    ∀ c ∈ natDigitsAux f n, IsDigitCharOf c := by
  intro f
  induction f with
  | zero => intro n hn; omega
  | succ f ih =>
    intro n hn
    by_cases h10 : n < 10
    · refine ⟨?_, ?_, ?_⟩
      · simp [natDigitsAux, h10, digitsVal, (digitChar_props n h10).2.1]
      · simp [natDigitsAux, h10]
      · intro c hc
        simp [natDigitsAux, h10] at hc
        exact ⟨n, h10, hc⟩
    · have hdiv : n / 10 < f := by
        have h1 : n / 10 < n := Nat.div_lt_self (by omega) (by omega)
        omega
      obtain ⟨ihv, ihne, ihd⟩ := ih (n / 10) hdiv
      have hmod : n % 10 < 10 := Nat.mod_lt _ (by omega)
      refine ⟨?_, ?_, ?_⟩
      · simp only [natDigitsAux, if_neg h10]
        rw [digitsVal_append_single, ihv, (digitChar_props _ hmod).2.1]
        omega
      · simp [natDigitsAux, h10]
      · intro c hc
        simp only [natDigitsAux, if_neg h10, List.mem_append,
          List.mem_singleton] at hc
        rcases hc with hc | rfl
        · exact ihd c hc
        · exact ⟨n % 10, hmod, rfl⟩

theorem natDigits_spec (n : ℕ) :
    digitsVal (natDigits n) = n ∧ natDigits n ≠ [] ∧
    ∀ c ∈ natDigits n, IsDigitCharOf c :=
  natDigitsAux_spec (n + 1) n (Nat.lt_succ_self n)

theorem natDigitsAux_small (f n : ℕ) (hf : n < f) (h10 : n < 10) :
    natDigitsAux f n = [digitChar n] := by
  cases f with
  | zero => omega
  | succ f => simp [natDigitsAux, h10]

theorem pad2_spec (n : ℕ) (hn : n < 100) :
    digitsVal (pad2 n) = n ∧ (pad2 n).length = 2 ∧
    ∀ c ∈ pad2 n, IsDigitCharOf c := by
  by_cases h10 : n < 10
  · refine ⟨?_, ?_, ?_⟩
    · simp [pad2, h10, digitsVal, (digitChar_props n h10).2.1]
      decide
    · simp [pad2, h10]
    · intro c hc
      simp [pad2, h10] at hc
      rcases hc with rfl | rfl
      · exact ⟨0, by omega, rfl⟩
      · exact ⟨n, h10, rfl⟩
  · have hdiv : n / 10 < 10 := by omega
    have hne : ¬ n < 10 := h10
    have hunfold : natDigits n = [digitChar (n / 10), digitChar (n % 10)] := by
      show natDigitsAux (n + 1) n = _
      cases hn' : n + 1 with
      | zero => omega
      | succ f =>
        simp only [natDigitsAux, if_neg hne]
        rw [natDigitsAux_small f (n / 10) (by omega) hdiv]
        rfl
    obtain ⟨hv, -, hd⟩ := natDigits_spec n
    have hp : pad2 n = natDigits n := by simp [pad2, h10]
    rw [hp]
    exact ⟨hv, by rw [hunfold]; rfl, hd⟩

/-! ### Helper lemmas: list scanning over all-digit segments -/

theorem takeWhile_append_of_all (p : Char → Bool) (A B : List Char)
    (h : ∀ c ∈ A, p c = true) :
    (A ++ B).takeWhile p = A ++ B.takeWhile p := by
  induction A with
  | nil => simp
  | cons a A ih =>
    have ha : p a = true := h a (List.mem_cons_self a A)
    simp only [List.cons_append, List.takeWhile_cons, ha, if_true]
    rw [ih (fun c hc => h c (List.mem_cons_of_mem a hc))]

theorem dropWhile_append_of_all (p : Char → Bool) (A B : List Char)
    (h : ∀ c ∈ A, p c = true) :
    (A ++ B).dropWhile p = B.dropWhile p := by
  induction A with
  | nil => simp
  | cons a A ih =>
    have ha : p a = true := h a (List.mem_cons_self a A)
    simp only [List.cons_append, List.dropWhile_cons, ha, if_true]
    exact ih (fun c hc => h c (List.mem_cons_of_mem a hc))

theorem map_eq_self_of (f : Char → Char) (L : List Char)
    (h : ∀ c ∈ L, f c = c) : L.map f = L := by
  induction L with
  | nil => rfl
  | cons a L ih =>
    simp only [List.map_cons, h a (List.mem_cons_self a L)]
    rw [ih (fun c hc => h c (List.mem_cons_of_mem a hc))]

theorem dropWhile_eq_self_of_all_false (p : Char → Bool) (L : List Char)
    (h : ∀ c ∈ L, p c = false) : L.dropWhile p = L := by
  cases L with
  | nil => rfl
  | cons a L => simp [List.dropWhile_cons, h a (List.mem_cons_self a L)]

theorem pyStrip_eq_self (L : List Char)
    (h : ∀ c ∈ L, isPySpace c = false) : pyStrip L = L := by
  unfold pyStrip
  rw [dropWhile_eq_self_of_all_false _ _ h,
    dropWhile_eq_self_of_all_false _ _ (fun c hc => h c (List.mem_reverse.mp hc)),
    List.reverse_reverse]

/-- Every character of the formatted digit block (`A ++ [sep] ++ B` with
`A`, `B` digit renderings) is a digit or the given separator. -/
theorem formatted_block_chars (A B : List Char) (sep : Char)
    (hA : ∀ c ∈ A, IsDigitCharOf c) (hB : ∀ c ∈ B, IsDigitCharOf c) :
    ∀ c ∈ A ++ sep :: B, IsDigitCharOf c ∨ c = sep := by
  intro c hc
  rcases List.mem_append.mp hc with hc | hc
  · exact Or.inl (hA c hc)
  · rcases List.mem_cons.mp hc with rfl | hc
    · exact Or.inr rfl
    · exact Or.inl (hB c hc)

/-! ### Helper lemmas: the format/parse round trip -/

/-- Parsing the BRL-formatted rendering of `n` cents (`n ≠ 0`) recovers the
finite decimal `n·10⁻²`. -/
theorem parse_of_formatted_cents (n : ℕ) (hn : n ≠ 0) :
    parseMoney ⟨pyReplaceChar (natDigits (n / 100) ++ ['.'] ++ pad2 (n % 100)) '.' ','⟩
      = .ok (some (.fin false n (-2))) := by
  obtain ⟨hAv, hAne, hAd⟩ := natDigits_spec (n / 100)
  obtain ⟨hBv, hBlen, hBd⟩ := pad2_spec (n % 100) (Nat.mod_lt _ (by norm_num))
  set A := natDigits (n / 100) with hA
  set B := pad2 (n % 100) with hB
  -- character classes
  have hAdig : ∀ c ∈ A, Char.isDigit c = true := by
    intro c hc; obtain ⟨k, hk, rfl⟩ := hAd c hc; exact (digitChar_props k hk).1
  have hBdig : ∀ c ∈ B, Char.isDigit c = true := by
    intro c hc; obtain ⟨k, hk, rfl⟩ := hBd c hc; exact (digitChar_props k hk).1
  have hAnd : ∀ c ∈ A, c ≠ '.' := by
    intro c hc; obtain ⟨k, hk, rfl⟩ := hAd c hc; exact (digitChar_props k hk).2.2.2.2.1
  have hBnd : ∀ c ∈ B, c ≠ '.' := by
    intro c hc; obtain ⟨k, hk, rfl⟩ := hBd c hc; exact (digitChar_props k hk).2.2.2.2.1
  -- the BRL string: digits, a comma, digits
  have hrepl : pyReplaceChar (A ++ ['.'] ++ B) '.' ',' = A ++ ',' :: B := by
    unfold pyReplaceChar
    rw [List.append_assoc, List.map_append]
    rw [map_eq_self_of _ A (fun c hc => by simp [hAnd c hc])]
    simp only [List.singleton_append, List.map_cons]
    rw [map_eq_self_of _ B (fun c hc => by simp [hBnd c hc])]
    simp
  rw [hrepl]
  -- normalisation inside `_parse_money`
  have hclass : ∀ c ∈ A ++ ',' :: B, IsDigitCharOf c ∨ c = ',' :=
    formatted_block_chars A B ',' hAd hBd
  have hstrip1 : pyStrip (A ++ ',' :: B) = A ++ ',' :: B := by
    apply pyStrip_eq_self
    intro c hc
    rcases hclass c hc with ⟨k, hk, rfl⟩ | rfl
    · exact (digitChar_props k hk).2.2.2.1
    · decide
  have hdel : pyDeleteChar (A ++ ',' :: B) '.' = A ++ ',' :: B := by
    unfold pyDeleteChar
    apply List.filter_eq_self.mpr
    intro c hc
    rcases hclass c hc with ⟨k, hk, rfl⟩ | rfl
    · simp [(digitChar_props k hk).2.2.2.2.1]
    · decide
  have hrep2 : pyReplaceChar (A ++ ',' :: B) ',' '.' = A ++ '.' :: B := by
    unfold pyReplaceChar
    rw [List.map_append]
    rw [map_eq_self_of _ A (fun c hc => by
      obtain ⟨k, hk, rfl⟩ := hAd c hc
      simp [(digitChar_props k hk).2.2.2.2.2.1])]
    simp only [List.map_cons]
    rw [map_eq_self_of _ B (fun c hc => by
      obtain ⟨k, hk, rfl⟩ := hBd c hc
      simp [(digitChar_props k hk).2.2.2.2.2.1])]
    simp
  have hnorm : normalizeMoney ⟨A ++ ',' :: B⟩ = A ++ '.' :: B := by
    unfold normalizeMoney
    show pyReplaceChar (pyDeleteChar (pyStrip (A ++ ',' :: B)) '.') ',' '.' = _
    rw [hstrip1, hdel, hrep2]
  -- the Decimal constructor on `A.B`
  have hclass2 : ∀ c ∈ A ++ '.' :: B, IsDigitCharOf c ∨ c = '.' :=
    formatted_block_chars A B '.' hAd hBd
  have hstrip2 : pyStrip (A ++ '.' :: B) = A ++ '.' :: B := by
    apply pyStrip_eq_self
    intro c hc
    rcases hclass2 c hc with ⟨k, hk, rfl⟩ | rfl
    · exact (digitChar_props k hk).2.2.2.1
    · decide
  have hfilt : (A ++ '.' :: B).filter (fun c => c ≠ '_') = A ++ '.' :: B := by
    apply List.filter_eq_self.mpr
    intro c hc
    rcases hclass2 c hc with ⟨k, hk, rfl⟩ | rfl
    · simp [(digitChar_props k hk).2.2.2.2.2.2.1]
    · decide
  have hlower : (A ++ '.' :: B).map Char.toLower = A ++ '.' :: B := by
    apply map_eq_self_of
    intro c hc
    rcases hclass2 c hc with ⟨k, hk, rfl⟩ | rfl
    · exact (digitChar_props k hk).2.2.1
    · decide
  -- head of A is a digit, so no sign is consumed and the number branch fires
  obtain ⟨a0, A', hA'⟩ : ∃ a0 A', A = a0 :: A' := by
    cases hAe : A with
    | nil => exact absurd hAe hAne
    | cons a0 A' => exact ⟨a0, A', rfl⟩
  obtain ⟨k0, hk0, ha0⟩ := hAd a0 (hA' ▸ List.mem_cons_self a0 A')
  have htake : (A ++ '.' :: B).takeWhile Char.isDigit = A :=
    (takeWhile_append_of_all _ A _ hAdig).trans (by
      simp [List.takeWhile_cons])
  have hdrop : (A ++ '.' :: B).dropWhile Char.isDigit = '.' :: B :=
    (dropWhile_append_of_all _ A _ hAdig).trans (by
      simp [List.dropWhile_cons])
  have htakeB : B.takeWhile Char.isDigit = B :=
    List.takeWhile_eq_self_iff.mpr hBdig
  have hdropB : B.dropWhile Char.isDigit = [] := by
    have h2 : (B.takeWhile Char.isDigit).length + (B.dropWhile Char.isDigit).length
        = B.length := by
      conv_rhs => rw [← List.takeWhile_append_dropWhile (p := Char.isDigit) (l := B)]
      rw [List.length_append]
    rw [htakeB] at h2
    have h3 : (B.dropWhile Char.isDigit).length = 0 := by omega
    exact List.length_eq_zero.mp h3
  have hval : digitsVal (A ++ B) = n := by
    rw [digitsVal_append, hAv, hBv, hBlen]
    have h100 : (10 : ℕ) ^ 2 = 100 := by norm_num
    rw [h100]
    omega
  have hnum : parseDecNumber (A ++ '.' :: B) false = some (.fin false n (-2)) := by
    simp only [parseDecNumber, htake, hdrop, htakeB, hdropB]
    simp only [hAne, false_and, if_false, hval, hBlen]
    rfl
  have hsign : decSign (A ++ '.' :: B) = (false, A ++ '.' :: B) := by
    rw [hA']
    show decSign (a0 :: (A' ++ '.' :: B)) = (false, a0 :: (A' ++ '.' :: B))
    rw [ha0]
    simp [decSign, (digitChar_props k0 hk0).2.2.2.2.2.2.2.1,
      (digitChar_props k0 hk0).2.2.2.2.2.2.2.2]
  have hdec : pyDecOfChars (A ++ '.' :: B) = some (.fin false n (-2)) := by
    unfold pyDecOfChars
    rw [hstrip2, hfilt, hlower, hsign]
    unfold decParseSigned
    rw [hnum]
  show parseMoney ⟨A ++ ',' :: B⟩ = .ok (some (.fin false n (-2)))
  unfold parseMoney
  rw [hnorm, hdec]
  simp [decLeZero, hn]

theorem val_fin_cents (n : ℕ) : (PyDec.fin false n (-2)).val = (n : ℚ) / 100 := by
  show finMag n (-2) = (n : ℚ) / 100
  unfold finMag
  have h2 : ((-(-2 : ℤ)).toNat) = 2 := by decide
  rw [h2]
  norm_num

/-- When `c·10^e` is exactly `n` hundredths, the half-even rescale to two
decimal places is exact. -/
theorem fixed2Cents_exact (c : ℕ) (e : ℤ) (n : ℕ)
    (hn : 100 * finMag c e = (n : ℚ)) : fixed2Cents c e = n := by
  by_cases he2 : 0 ≤ e + 2
  · by_cases he : 0 ≤ e
    · -- integral exponent: the rescale multiplies the coefficient
      rw [finMag, if_pos he] at hn
      push_cast at hn
      have hnat : 100 * (c * 10 ^ e.toNat) = n := by exact_mod_cast hn
      rw [fixed2Cents, if_pos he2]
      have ht : (e + 2).toNat = e.toNat + 2 := by omega
      rw [ht, pow_add]
      have h100 : (10 : ℕ) ^ 2 = 100 := by norm_num
      rw [h100, ← hnat]
      ring
    · -- e = -1 or e = -2
      have hee : e = -1 ∨ e = -2 := by omega
      rcases hee with rfl | rfl
      · rw [finMag, if_neg he] at hn
        have h1 : ((-(-1 : ℤ)).toNat) = 1 := by decide
        rw [h1] at hn
        push_cast at hn
        rw [← mul_div_assoc] at hn
        rw [div_eq_iff (by norm_num : (10 : ℚ) ≠ 0)] at hn
        · have hnat : 100 * c = n * 10 := by exact_mod_cast hn
          rw [fixed2Cents, if_pos he2]
          have ht : ((-1 + 2 : ℤ)).toNat = 1 := by decide
          rw [ht]
          simp only [pow_one]
          omega
      · rw [finMag, if_neg he] at hn
        have h1 : ((-(-2 : ℤ)).toNat) = 2 := by decide
        rw [h1] at hn
        push_cast at hn
        rw [← mul_div_assoc] at hn
        rw [div_eq_iff (by norm_num : (100 : ℚ) ≠ 0)] at hn
        · have hnat : 100 * c = n * 100 := by exact_mod_cast hn
          rw [fixed2Cents, if_pos he2]
          have ht : ((-2 + 2 : ℤ)).toNat = 0 := by decide
          rw [ht]
          simp only [pow_zero, mul_one]
          omega
  · -- e + 2 < 0: the coefficient is divided by 10^(−e−2), exactly
    have he : ¬ 0 ≤ e := by omega
    rw [finMag, if_neg he] at hn
    push_cast at hn
    rw [← mul_div_assoc] at hn
    rw [div_eq_iff (by positivity : ((10 : ℚ) ^ ((-e).toNat)) ≠ 0)] at hn
    have hnat : 100 * c = n * 10 ^ ((-e).toNat) := by exact_mod_cast hn
    have hk : (-e).toNat = (-(e + 2)).toNat + 2 := by omega
    rw [hk] at hnat
    have hc : c = n * 10 ^ ((-(e + 2)).toNat) := by
      have hsplit : (10 : ℕ) ^ ((-(e + 2)).toNat + 2)
          = 10 ^ ((-(e + 2)).toNat) * 100 := by rw [pow_add]; norm_num
      rw [hsplit] at hnat
      have := hnat
      nlinarith [hnat]
    rw [fixed2Cents, if_neg he2]
    have hD : 0 < (10 : ℕ) ^ ((-(e + 2)).toNat) := Nat.pos_pow_of_pos _ (by norm_num)
    have hdiv : c / 10 ^ ((-(e + 2)).toNat) = n := by
      rw [hc, Nat.mul_div_cancel _ hD]
    have hmod : c % 10 ^ ((-(e + 2)).toNat) = 0 := by rw [hc, Nat.mul_mod_left]
    rw [hdiv, hmod, Nat.mul_zero, if_neg (by omega), if_pos hD]
    omega

/-! ### Claim C6: parse ∘ format ∘ parse -/

/-- **C6, amended.**  For every decimal value successfully returned by money
parsing whose value is a whole number of cents (at most two decimal places),
formatting it with `_format_brl` (two decimal places, `,` marker) and
re-parsing yields a decimal with the same numeric value.  As frozen — over
*every* parsed value — the claim is false, because a parsed value may carry
more than two decimal places and the formatting rounds: see
`c6_roundtrip_cex`. -/
theorem c6_roundtrip_amended (s : String) (d : PyDec)
    (h : parseMoney s = .ok (some d)) (h2 : (100 * d.val).den = 1) :
    ∃ d2, parseMoney (formatBRL d) = .ok (some d2) ∧ d2.val = d.val := by
  rcases parseMoney_ok_shape s d h with rfl | ⟨c, e, rfl, hc⟩
  · exact ⟨.inf false, by decide, rfl⟩
  · have hqpos : (0 : ℚ) < finMag c e := finMag_pos c e hc
    have hval : (PyDec.fin false c e).val = finMag c e := by simp [PyDec.val]
    have hnn : 0 ≤ (100 * (PyDec.fin false c e).val).num := by
      rw [hval]
      exact Rat.num_nonneg.mpr (by positivity)
    have hqn : (((100 * (PyDec.fin false c e).val).num.toNat : ℕ) : ℚ)
        = 100 * finMag c e := by
      have hd1 : (((100 * (PyDec.fin false c e).val).den : ℕ) : ℚ) = 1 := by
        rw [h2]; norm_num
      have hnd := Rat.num_div_den (100 * (PyDec.fin false c e).val)
      rw [hd1, div_one] at hnd
      rw [hval] at hnd
      calc (((100 * (PyDec.fin false c e).val).num.toNat : ℕ) : ℚ)
          = (((100 * (PyDec.fin false c e).val).num.toNat : ℤ) : ℚ) := by
            push_cast; ring
        _ = (((100 * (PyDec.fin false c e).val).num : ℤ) : ℚ) := by
            rw [Int.toNat_of_nonneg hnn]
        _ = 100 * finMag c e := by rw [← hval]; exact_mod_cast hnd
    set n : ℕ := (100 * (PyDec.fin false c e).val).num.toNat with hndef
    have hn0 : n ≠ 0 := by
      intro h0
      rw [h0] at hqn
      norm_num at hqn
      nlinarith [hqn, hqpos]
    have hcents : fixed2Cents c e = n := fixed2Cents_exact c e n hqn.symm
    have hchars : formatFixed2Chars (.fin false c e)
        = natDigits (fixed2Cents c e / 100) ++ ['.'] ++ pad2 (fixed2Cents c e % 100) := rfl
    rw [hcents] at hchars
    have hfmt : formatBRL (.fin false c e)
        = ⟨pyReplaceChar (natDigits (n / 100) ++ ['.'] ++ pad2 (n % 100)) '.' ','⟩ := by
      unfold formatBRL
      rw [hchars]
    refine ⟨.fin false n (-2), ?_, ?_⟩
    · rw [hfmt]
      exact parse_of_formatted_cents n hn0
    · rw [val_fin_cents, hval]
      rw [div_eq_iff (by norm_num : (100 : ℚ) ≠ 0)]
      linarith [hqn]

/-- **C6, witness** for the amended round-trip theorem at the parsed input
`"2,5"` (value 2.50, a whole number of cents). -/
theorem c6_roundtrip_witness :
    ∃ d2, parseMoney (formatBRL (.fin false 25 (-1))) = .ok (some d2) ∧
      d2.val = (PyDec.fin false 25 (-1)).val :=
  c6_roundtrip_amended "2,5" (.fin false 25 (-1)) (by decide)
    (by norm_num [PyDec.val, finMag, show Int.toNat 1 = 1 from rfl])

/-! ### Claim C5: money parsing -/

/-- **C5, amended.**  Money parsing treats `.` as thousands separator and
`,` as decimal separator after stripping surrounding whitespace
(`"1.234,56"` parses to 1234.56) and rejects non-positive input (`"0"` and
`"-5,00"` fail); for non-numeric input it returns `None` rather than
raising, **except** that an input denoting a NaN (the only way the raising
path is reached) makes the comparison `parsed <= 0` raise an uncaught
`InvalidOperation` — see `c5_money_cex`.  Every successfully parsed value is
positive (or `+Infinity`). -/
theorem c5_money_amended :
    parseMoney "1.234,56" = .ok (some (.fin false 123456 (-2))) ∧
    (PyDec.fin false 123456 (-2)).val = 123456 / 100 ∧
    parseMoney "0" = .ok none ∧
    parseMoney "-5,00" = .ok none ∧
    (∀ s, parseMoney s = .error () → pyDecOfChars (normalizeMoney s) = some .nan) ∧
    (∀ s d, parseMoney s = .ok (some d) → 0 < d.val ∨ d = .inf false) := by
  refine ⟨by decide, ?_, by decide, by decide, ?_, parseMoney_ok_pos⟩
  · norm_num [PyDec.val, finMag, show Int.toNat 2 = 2 from rfl]
  · intro s h
    unfold parseMoney at h
    cases hp : pyDecOfChars (normalizeMoney s) with
    | none => rw [hp] at h; exact absurd h (by simp)
    | some d =>
      rw [hp] at h
      cases d with
      | fin neg c e =>
        simp only [decLeZero] at h
        cases hz : (decide (c = 0) || neg) <;> rw [hz] at h <;>
          exact absurd h (by simp)
      | inf neg =>
        simp only [decLeZero] at h
        cases neg <;> exact absurd h (by simp)
      | nan => rfl

/-- **C5, witness** for the amended theorem: the raising path is exactly the
NaN literals (`"snan"`), and a parsed `"250,90"` is positive. -/
theorem c5_money_witness :
    pyDecOfChars (normalizeMoney "snan") = some PyDec.nan ∧
    (0 < (PyDec.fin false 25090 (-2)).val ∨
      (PyDec.fin false 25090 (-2)) = PyDec.inf false) :=
  ⟨c5_money_amended.2.2.2.2.1 "snan" (by decide),
   c5_money_amended.2.2.2.2.2 "250,90" _ (by decide)⟩

/-- **C5, counterexample to the frozen claim.**  On input `"nan"` the parser
does not return `None`: `Decimal("nan")` constructs a NaN and the comparison
`parsed <= 0` — outside the `try` block — raises `InvalidOperation`, which
propagates to the caller. -/
theorem c5_money_cex : parseMoney "nan" = .error () := by decide

/-! ### Claim C7: date parsing -/

theorem mkValidDate_valid (y m d : ℕ) (p : PDate)
    (h : mkValidDate y m d = some p) : validPDate p = true := by
  unfold mkValidDate at h
  split at h
  · rename_i hcond
    injection h with h
    subst h
    simp only [validPDate]
    simp only [Bool.and_eq_true, decide_eq_true_eq]
    omega
  · exact absurd h (by simp)

theorem strptimeDMY_valid (cs : List Char) (p : PDate)
    (h : strptimeDMY cs = some p) : validPDate p = true := by
  unfold strptimeDMY at h
  repeat' split at h
  all_goals first
    | exact absurd h (by simp)
    | exact mkValidDate_valid _ _ _ _ h

theorem strptimeYMD_valid (cs : List Char) (p : PDate)
    (h : strptimeYMD cs = some p) : validPDate p = true := by
  unfold strptimeYMD at h
  repeat' split at h
  all_goals first
    | exact absurd h (by simp)
    | exact mkValidDate_valid _ _ _ _ h

/-- **C7.**  `_parse_date` accepts exactly the formats `DD/MM/YYYY` and
`YYYY-MM-DD`, trying `DD/MM/YYYY` first (so `"01/02/2024"` is February 1st),
and rejects everything else, including syntactically well-formed but
non-existent calendar dates: `"31/02/2024"` fails while `"2024-02-29"`
succeeds (leap year); every parsed result is a real calendar date. -/
theorem c7_date_parsing :
    parseDate "31/02/2024" = none ∧
    parseDate "2024-02-29" = some ⟨2024, 2, 29⟩ ∧
    parseDate "01/02/2024" = some ⟨2024, 2, 1⟩ ∧
    (∀ s p, parseDate s = some p → validPDate p = true) ∧
    (∀ s p, parseDate s = some p →
      strptimeDMY (pyStrip s.data) = some p ∨ strptimeYMD (pyStrip s.data) = some p) ∧
    (∀ s p, strptimeDMY (pyStrip s.data) = some p → parseDate s = some p) := by
  refine ⟨by decide, by decide, by decide, ?_, ?_, ?_⟩
  · intro s p h
    unfold parseDate at h
    cases h1 : strptimeDMY (pyStrip s.data) with
    | some q =>
      rw [h1] at h
      injection h with h
      subst h
      exact strptimeDMY_valid _ _ h1
    | none =>
      rw [h1] at h
      exact strptimeYMD_valid _ _ h
  · intro s p h
    unfold parseDate at h
    cases h1 : strptimeDMY (pyStrip s.data) with
    | some q =>
      rw [h1] at h
      injection h with h
      subst h
      exact Or.inl rfl
    | none =>
      rw [h1] at h
      exact Or.inr h
  · intro s p h
    unfold parseDate
    rw [h]

/-- **C7, witness**: the validity clause applied at `"2024-02-29"`. -/
theorem c7_date_parsing_witness : validPDate ⟨2024, 2, 29⟩ = true :=
  c7_date_parsing.2.2.2.1 "2024-02-29" ⟨2024, 2, 29⟩ (by decide)

/-! ### Claim C10: access guard -/

/-- **C10.**  With an empty allow-list every caller is authorized
(fail-open); with a non-empty allow-list exactly the listed ids pass.  An
unauthorized caller issuing the start command receives the fixed rejection
message, the conversation ends and the scratch is left untouched (no state
created); an authorized caller gets the Kind prompt over a fresh scratch. -/
theorem c10_access_guard (env : Env) (cur : Option ConvState) (s : Scratch)
    (uid : ℤ) :
    (env.authorized = [] → isAuthorized env uid = true) ∧
    (isAuthorized env uid = true ↔ env.authorized = [] ∨ uid ∈ env.authorized) ∧
    (isAuthorized env uid = false →
      convStep env cur s (.cmdStart uid) = ⟨none, s, some msgNotAuthorized⟩) ∧
    (isAuthorized env uid = true →
      convStep env cur s (.cmdStart uid)
      = ⟨some .kind, emptyScratch, some msgStartPrompt⟩) := by
  refine ⟨?_, ?_, ?_, ?_⟩
  · intro h
    simp [isAuthorized, h]
  · simp [isAuthorized, List.isEmpty_iff]
  · intro h
    simp [convStep, h]
  · intro h
    simp [convStep, h]

/-- **C10, witness**: allow-list `{111}` — caller 222 is rejected with the
fixed message and the pre-existing scratch is untouched; caller 111 reaches
the Kind prompt. -/
theorem c10_access_guard_witness :
    convStep ⟨[], [], ⟨2024, 1, 1⟩, [111]⟩ none
        ({ kind := some "recebendo" } : Scratch) (.cmdStart 222)
      = ⟨none, { kind := some "recebendo" }, some msgNotAuthorized⟩ ∧
    convStep ⟨[], [], ⟨2024, 1, 1⟩, [111]⟩ none
        ({ kind := some "recebendo" } : Scratch) (.cmdStart 111)
      = ⟨some .kind, emptyScratch, some msgStartPrompt⟩ :=
  ⟨(c10_access_guard ⟨[], [], ⟨2024, 1, 1⟩, [111]⟩ none
      { kind := some "recebendo" } 222).2.2.1 (by decide),
   (c10_access_guard ⟨[], [], ⟨2024, 1, 1⟩, [111]⟩ none
      { kind := some "recebendo" } 111).2.2.2 (by decide)⟩

/-! ### Claim C1: sign convention of the persisted payload -/

/-- The payload `_entry_payload` builds once all required keys are
present. -/
theorem entryPayload_eq (s : Scratch) (k : String) (ov : PyDec)
    (desc : String) (cat : ℤ) (fp : String) (dd : PDate)
    (hkind : s.kind = some k) (hov : s.original_value = some ov)
    (hdesc : s.description = some desc) (hcat : s.category = some cat)
    (hfp : s.forma_pagamento = some fp) (hdd : s.due_date = some dd) :
    entryPayload s = some
      { description := desc
        category := cat
        cost_center := s.cost_center.getD none
        forma_pagamento := fp
        due_date := dd
        original_value := signedAmount k ov
        received_value := (s.received_value.getD none).map (signedAmount k)
        payment_date := s.payment_date.getD none } := by
  unfold entryPayload
  rw [hkind, hov, hdesc, hcat, hfp, hdd]

/-- If `_entry_payload` succeeds, all six required keys were present. -/
theorem entryPayload_some_fields (s : Scratch) (p : Payload)
    (h : entryPayload s = some p) :
    ∃ k ov desc cat fp dd, s.kind = some k ∧ s.original_value = some ov ∧
      s.description = some desc ∧ s.category = some cat ∧
      s.forma_pagamento = some fp ∧ s.due_date = some dd := by
  unfold entryPayload at h
  repeat' split at h
  · rename_i k ov desc cat fp dd h1 h2 h3 h4 h5 h6
    exact ⟨k, ov, desc, cat, fp, dd, by simp_all⟩
  all_goals exact absurd h (by simp)

/-- **C1.**  For a completed conversation payload (kind one of the two
offered values, entered magnitude positive), the persisted `original_value`
is the magnitude negated exactly when kind = `"pagando"` and kept when
kind = `"recebendo"`; equivalently it is positive iff kind = `"recebendo"`;
and a present `received_value` undergoes the same transformation. -/
theorem c1_sign_convention (s : Scratch) (p : Payload) (kind : String)
    (ov : PyDec)
    (hk : kind = "pagando" ∨ kind = "recebendo")
    (hkind : s.kind = some kind)
    (hov : s.original_value = some ov)
    (hpos : 0 < ov.val)
    (hp : entryPayload s = some p) :
    p.original_value = signedAmount kind ov ∧
    p.original_value.val = (if kind = "pagando" then -ov.val else ov.val) ∧
    (0 < p.original_value.val ↔ kind = "recebendo") ∧
    (∀ rv, s.received_value = some (some rv) →
      p.received_value = some (signedAmount kind rv) ∧
      (0 < rv.val → (0 < (signedAmount kind rv).val ↔ kind = "recebendo"))) := by
  obtain ⟨k', ov', desc, cat, fp, dd, h1, h2, h3, h4, h5, h6⟩ :=
    entryPayload_some_fields s p hp
  rw [hkind] at h1
  rw [hov] at h2
  injection h1 with h1
  injection h2 with h2
  subst h1
  subst h2
  rw [entryPayload_eq s kind ov desc cat fp dd hkind hov h3 h4 h5 h6] at hp
  injection hp with hp
  subst hp
  have hsign : ∀ v : PyDec, (signedAmount kind v).val
      = (if kind = "pagando" then -v.val else v.val) := by
    intro v
    rcases hk with rfl | rfl
    · simp [signedAmount, val_neg]
    · simp [signedAmount]
  have hposiff : ∀ v : PyDec, 0 < v.val →
      (0 < (signedAmount kind v).val ↔ kind = "recebendo") := by
    intro v hv
    rcases hk with rfl | rfl
    · have h1 : signedAmount "pagando" v = v.neg := by simp [signedAmount]
      rw [h1, val_neg]
      constructor
      · intro hcon
        exact absurd hv (by linarith)
      · intro hcon
        exact absurd hcon (by decide)
    · have h1 : signedAmount "recebendo" v = v := by simp [signedAmount]
      rw [h1]
      simp [hv]
  refine ⟨rfl, hsign ov, ?_, ?_⟩
  · exact hposiff ov hpos
  · intro rv hrv
    constructor
    · show (s.received_value.getD none).map (signedAmount kind)
        = some (signedAmount kind rv)
      rw [hrv]
      rfl
    · exact hposiff rv

/-- **C1, witness**: a paying entry of magnitude 5 with received magnitude 3
is persisted as −5 / −3, and the persisted value is not positive. -/
theorem c1_sign_convention_witness :
    payloadPaying.original_value = signedAmount "pagando" (.fin false 5 0) ∧
    payloadPaying.original_value.val
      = (if "pagando" = "pagando" then -(PyDec.fin false 5 0).val
         else (PyDec.fin false 5 0).val) ∧
    (0 < payloadPaying.original_value.val ↔ "pagando" = "recebendo") ∧
    (∀ rv, scratchPaying.received_value = some (some rv) →
      payloadPaying.received_value = some (signedAmount "pagando" rv) ∧
      (0 < rv.val →
        (0 < (signedAmount "pagando" rv).val ↔ "pagando" = "recebendo"))) :=
  c1_sign_convention scratchPaying payloadPaying "pagando" (.fin false 5 0)
    (Or.inl rfl) rfl rfl (by norm_num [PyDec.val, finMag]) rfl

/-! ### Claim C2: the cash-settlement shortcut -/

/-- **C2.**  At the cash-settlement step, selecting "yes" (callback
`settled_cash:sim`) transitions in one step to Confirmation, setting
`payment_date` to the previously chosen due date and `received_value` to the
entered original value, changing nothing else and never visiting the
payment-date or received-value states.  (The presence hypotheses are the
fields the conversation has necessarily collected before reaching this
step.) -/
theorem c2_cash_settlement (env : Env) (s : Scratch) (dd : PDate)
    (ov : PyDec) (k de catl fpl : String)
    (hdd : s.due_date = some dd) (hov : s.original_value = some ov)
    (hk : s.kind = some k) (hde : s.description = some de)
    (hcatl : s.category_label = some catl)
    (hfpl : s.forma_pagamento_label = some fpl) :
    (convStep env (some .settledCash) s (.cb "settled_cash:sim")).state
      = some ConvState.confirmation ∧
    (convStep env (some .settledCash) s (.cb "settled_cash:sim")).data
      = { s with payment_date := some (some dd),
                 received_value := some (some ov) } ∧
    (convStep env (some .settledCash) s (.cb "settled_cash:sim")).state
      ≠ some ConvState.paymentDate ∧
    (convStep env (some .settledCash) s (.cb "settled_cash:sim")).state
      ≠ some ConvState.receivedValue := by
  obtain ⟨k1, de1, c1, cl1, cc1, ccl1, f1, fl1, d1, o1, i1, p1, r1⟩ := s
  replace hdd : d1 = some dd := hdd
  replace hov : o1 = some ov := hov
  replace hk : k1 = some k := hk
  replace hde : de1 = some de := hde
  replace hcatl : cl1 = some catl := hcatl
  replace hfpl : fl1 = some fpl := hfpl
  subst hdd hov hk hde hcatl hfpl
  have h1 : (convStep env (some .settledCash)
      ⟨some k, some de, c1, some catl, cc1, ccl1, f1, some fpl, some dd,
        some ov, i1, p1, r1⟩ (.cb "settled_cash:sim")).state
      = some ConvState.confirmation := rfl
  exact ⟨h1, rfl, by rw [h1]; simp, by rw [h1]; simp⟩

/-- **C2, witness** at the concrete pre-collected scratch `scratchAtCash`. -/
theorem c2_cash_settlement_witness :
    (convStep envNoCC (some .settledCash) scratchAtCash
        (.cb "settled_cash:sim")).state = some ConvState.confirmation ∧
    (convStep envNoCC (some .settledCash) scratchAtCash
        (.cb "settled_cash:sim")).data = scratchAtCashDone ∧
    (convStep envNoCC (some .settledCash) scratchAtCash
        (.cb "settled_cash:sim")).state ≠ some ConvState.paymentDate ∧
    (convStep envNoCC (some .settledCash) scratchAtCash
        (.cb "settled_cash:sim")).state ≠ some ConvState.receivedValue :=
  c2_cash_settlement envNoCC scratchAtCash ⟨2024, 5, 10⟩
    (.fin false 25090 (-2)) "recebendo" "Aluguel" "Moradia" "PIX"
    rfl rfl rfl rfl rfl rfl

/-! ### Claim C3: the settlement rule of the validator -/

/-- **C3.**  For every submitted payload, validation fails whenever
`payment_date` is set while `received_value` is unset, with the error
attached to the `received_value` field; conversely, with `payment_date`
unset, that rule's error never appears, whatever `received_value` is. -/
theorem c3_settlement_validation (cats ccs : List (ℤ × String)) (p : Payload) :
    (p.payment_date.isSome = true → p.received_value = none →
      ("received_value", msgSettleAmount) ∈ entryFormErrors cats ccs p) ∧
    (p.payment_date = none →
      ("received_value", msgSettleAmount) ∉ entryFormErrors cats ccs p) := by
  constructor
  · intro h1 h2
    simp [entryFormErrors, h2, h1]
  · intro h0
    simp [entryFormErrors, h0]
    constructor
    · repeat' split
      all_goals first | decide | simp
    · repeat' split
      all_goals first | decide | simp

/-- **C3, witness**: a payload with a payment date and no received value is
rejected on `received_value`; with neither, that error never appears. -/
theorem c3_settlement_validation_witness :
    ("received_value", msgSettleAmount)
      ∈ entryFormErrors [(1, "Moradia")] []
        { payloadGood with payment_date := some ⟨2024, 5, 10⟩ } ∧
    ("received_value", msgSettleAmount)
      ∉ entryFormErrors [(1, "Moradia")] [] payloadZeroReceived :=
  ⟨(c3_settlement_validation [(1, "Moradia")] []
      { payloadGood with payment_date := some ⟨2024, 5, 10⟩ }).1
      (by decide) (by decide),
   (c3_settlement_validation [(1, "Moradia")] [] payloadZeroReceived).2 rfl⟩

/-! ### Claim C4: zero and sign rules of the validator -/

theorem decFieldOk_fin (d : PyDec) (h : decFieldOk d = true) :
    ∃ neg c e, d = .fin neg c e := by
  cases d with
  | fin neg c e => exact ⟨neg, c, e, rfl⟩
  | inf neg => exact absurd h (by simp [decFieldOk])
  | nan => exact absurd h (by simp [decFieldOk])

/-- **C4, amended.**  The validator rejects, with a field-scoped error, any
payload whose original value is exactly zero (via the zero rule, or via the
decimal-field validator when the representation is itself out of range);
and any payload whose present **nonzero** received value differs in
positivity from the original value — the error lands on `original_value` or
`received_value`, and when both values are valid decimals and the original
is nonzero it is specifically the sign-mismatch error on `received_value`.
As frozen the claim is false for a present received value of exactly zero,
which the falsiness short-circuit in `clean_received_value` lets through —
see `c4_validator_cex`. -/
theorem c4_validator_amended (cats ccs : List (ℤ × String)) (p : Payload)
    (r : PyDec) :
    (p.original_value.val = 0 →
      ∃ m, ("original_value", m) ∈ entryFormErrors cats ccs p) ∧
    (p.received_value = some r → decTruthy r = true →
      ¬ ((0 < p.original_value.val) ↔ (0 < r.val)) →
      ∃ f m, (f, m) ∈ entryFormErrors cats ccs p ∧
        (f = "original_value" ∨ f = "received_value")) ∧
    (decFieldOk p.original_value = true → decIsZero p.original_value = false →
      p.received_value = some r → decFieldOk r = true → decTruthy r = true →
      ¬ ((0 < p.original_value.val) ↔ (0 < r.val)) →
      ("received_value", msgSignMismatch) ∈ entryFormErrors cats ccs p) := by
  have hzero : p.original_value.val = 0 →
      ∃ m, ("original_value", m) ∈ entryFormErrors cats ccs p := by
    intro h0
    cases hov : p.original_value with
    | nan => exact ⟨msgInvalidNumber, by simp [entryFormErrors, hov, decFieldOk]⟩
    | inf b => exact ⟨msgInvalidNumber, by simp [entryFormErrors, hov, decFieldOk]⟩
    | fin neg c e =>
      have hc : c = 0 := by
        by_contra hc
        have hpos := finMag_pos c e hc
        rw [hov] at h0
        cases neg with
        | true => simp [PyDec.val] at h0; linarith [h0, hpos]
        | false => simp [PyDec.val] at h0; linarith [h0, hpos]
      subst hc
      by_cases hok : decFieldOk (.fin neg 0 e) = true
      · exact ⟨msgZeroOriginal, by simp [entryFormErrors, hov, hok, decIsZero]⟩
      · have hok' : decFieldOk (.fin neg 0 e) = false := by
          simpa using hok
        exact ⟨msgInvalidNumber, by simp [entryFormErrors, hov, hok']⟩
  have hsign : decFieldOk p.original_value = true →
      decIsZero p.original_value = false →
      p.received_value = some r → decFieldOk r = true → decTruthy r = true →
      ¬ ((0 < p.original_value.val) ↔ (0 < r.val)) →
      ("received_value", msgSignMismatch) ∈ entryFormErrors cats ccs p := by
    intro hov hnz hrv hrok htr hdiff
    have hb : decGtZero p.original_value ≠ decGtZero r := by
      obtain ⟨n1, c1, e1, ho⟩ := decFieldOk_fin _ hov
      obtain ⟨n2, c2, e2, hr⟩ := decFieldOk_fin _ hrok
      rw [ho, hr, decGtZero_fin, decGtZero_fin]
      intro heq
      rw [ho, hr] at hdiff
      exact hdiff (decide_eq_decide.mp heq)
    simp [entryFormErrors, hrv, hov, hnz, hrok, htr, hb]
  refine ⟨hzero, ?_, hsign⟩
  intro hrv htr hdiff
  by_cases hrok : decFieldOk r = true
  · by_cases hok : decFieldOk p.original_value = true
    · by_cases hz : decIsZero p.original_value = true
      · -- original is a (valid) zero decimal: the zero rule rejects it
        have h0 : p.original_value.val = 0 := by
          obtain ⟨n1, c1, e1, ho⟩ := decFieldOk_fin _ hok
          rw [ho] at hz ⊢
          have hc : c1 = 0 := by simpa [decIsZero] using hz
          subst hc
          cases n1 <;> simp [PyDec.val, finMag_eq_zero]
        obtain ⟨m, hm⟩ := hzero h0
        exact ⟨"original_value", m, hm, Or.inl rfl⟩
      · -- both valid, original nonzero: the sign rule fires
        have hz' : decIsZero p.original_value = false := by simpa using hz
        exact ⟨"received_value", msgSignMismatch,
          hsign hok hz' hrv hrok htr hdiff, Or.inr rfl⟩
    · -- original fails the decimal-field validator
      have hok' : decFieldOk p.original_value = false := by simpa using hok
      exact ⟨"original_value", msgInvalidNumber,
        by simp [entryFormErrors, hok'], Or.inl rfl⟩
  · -- received fails the decimal-field validator
    have hrok' : decFieldOk r = false := by simpa using hrok
    exact ⟨"received_value", msgInvalidNumber,
      by simp [entryFormErrors, hrv, hrok'], Or.inr rfl⟩

/-- **C4, witness**: a zero original value is rejected on `original_value`;
+5 original with −3 received is rejected with a field-scoped error —
specifically the sign-mismatch error on `received_value`. -/
theorem c4_validator_amended_witness :
    (∃ m, ("original_value", m)
      ∈ entryFormErrors [(1, "Moradia")] [] payloadZeroOriginal) ∧
    (∃ f m, (f, m) ∈ entryFormErrors [(1, "Moradia")] [] payloadMismatch ∧
      (f = "original_value" ∨ f = "received_value")) ∧
    ("received_value", msgSignMismatch)
      ∈ entryFormErrors [(1, "Moradia")] [] payloadMismatch :=
  ⟨(c4_validator_amended [(1, "Moradia")] [] payloadZeroOriginal
      (.fin false 0 0)).1 (by norm_num [payloadZeroOriginal, PyDec.val, finMag]),
   (c4_validator_amended [(1, "Moradia")] [] payloadMismatch
      (.fin true 3 0)).2.1 rfl (by decide)
      (by norm_num [payloadMismatch, PyDec.val, finMag]),
   (c4_validator_amended [(1, "Moradia")] [] payloadMismatch
      (.fin true 3 0)).2.2 (by decide) (by decide) rfl (by decide) (by decide)
      (by norm_num [payloadMismatch, PyDec.val, finMag])⟩

/-- **C4, counterexample to the frozen claim.**  The payload with
`original_value` +5 and present `received_value` 0 differs in positivity
(one strictly positive, the other not) yet passes validation with no errors:
`received` being falsy short-circuits the sign check. -/
theorem c4_validator_cex :
    entryFormErrors [(1, "Moradia")] [] payloadZeroReceived = [] ∧
    payloadZeroReceived.received_value = some (.fin false 0 0) ∧
    (0 < payloadZeroReceived.original_value.val) ∧
    ¬ (0 < (PyDec.fin false 0 0).val) := by
  refine ⟨by decide, by decide, ?_, ?_⟩
  · norm_num [payloadZeroReceived, PyDec.val, finMag]
  · norm_num [PyDec.val, finMag, finMag_eq_zero]

/-! ### Claim C8: invalid input re-prompts without mutation -/

/-- **C8, amended.**  Unparseable input re-prompts the same state with an
error and leaves the scratch untouched, and a selection outside the offered
set is likewise rejected for the category and payment-method states; but in
the cost-center state only a non-integer selection is rejected — an integer
id outside the store's listing is accepted and stored (the conversation
advances), contrary to the frozen claim: see `c8_cost_center_cex`. -/
theorem c8_invalid_input_amended (env : Env) (s : Scratch)
    (data sel t : String) :
    (cbSplit data = some ("cat", sel) →
      (pyInt sel = none ∨ ∀ cid, pyInt sel = some cid →
        env.categories.find? (fun c => c.1 = cid) = none) →
      convStep env (some .category) s (.cb data)
        = ⟨some .category, s, some msgInvalidCategory⟩) ∧
    (cbSplit data = some ("pm", sel) →
      (pyInt sel = none ∨ ∀ i, pyInt sel = some i →
        pmOptions.find? (fun o => (o.1 : ℤ) = i) = none) →
      convStep env (some .paymentMethod) s (.cb data)
        = ⟨some .paymentMethod, s, some msgInvalidPayment⟩) ∧
    (cbSplit data = some ("cc", sel) → sel ≠ "none" → pyInt sel = none →
      convStep env (some .costCenter) s (.cb data)
        = ⟨some .costCenter, s, some msgInvalidCostCenter⟩) ∧
    (stripStr t = "" → convStep env (some .description) s (.msg t)
        = ⟨some .description, s, some msgEmptyDescription⟩) ∧
    (parseDate t = none → convStep env (some .dueDate) s (.msg t)
        = ⟨some .dueDate, s, some msgInvalidDate⟩) ∧
    (parseDate t = none → convStep env (some .paymentDate) s (.msg t)
        = ⟨some .paymentDate, s, some msgInvalidDate⟩) ∧
    (parseMoney t = .ok none → convStep env (some .originalValue) s (.msg t)
        = ⟨some .originalValue, s, some msgInvalidValue⟩) ∧
    (lowerStr (stripStr t) ≠ "mesmo" → parseMoney t = .ok none →
      convStep env (some .receivedValue) s (.msg t)
        = ⟨some .receivedValue, s, some msgInvalidReceived⟩) := by
  refine ⟨?_, ?_, ?_, ?_, ?_, ?_, ?_, ?_⟩
  · intro h hbad
    rcases hbad with hbad | hbad
    · simp [convStep, h, stepCb, hbad, reprompt]
    · cases hpi : pyInt sel with
      | none => simp [convStep, h, stepCb, hpi, reprompt]
      | some cid => simp [convStep, h, stepCb, hpi, hbad cid hpi, reprompt]
  · intro h hbad
    rcases hbad with hbad | hbad
    · simp [convStep, h, stepCb, hbad, reprompt]
    · cases hpi : pyInt sel with
      | none => simp [convStep, h, stepCb, hpi, reprompt]
      | some i => simp [convStep, h, stepCb, hpi, hbad i hpi, reprompt]
  · intro h hnn hpi
    simp [convStep, h, stepCb, hnn, hpi, reprompt]
  · intro h
    simp [convStep, stepMsg, h, reprompt]
  · intro h
    simp [convStep, stepMsg, h, reprompt]
  · intro h
    simp [convStep, stepMsg, h, reprompt]
  · intro h
    simp [convStep, stepMsg, h, reprompt]
  · intro h1 h2
    simp [convStep, stepMsg, h1, h2, reprompt]

/-- **C8, witness**: a category id outside the listing, a malformed
payment-method index, a non-integer cost-center selection and an unparseable
date all re-prompt their state over an untouched scratch. -/
theorem c8_invalid_input_witness :
    convStep envNoCC (some .category) scratchPaying (.cb "cat:99")
      = ⟨some .category, scratchPaying, some msgInvalidCategory⟩ ∧
    convStep envNoCC (some .paymentMethod) scratchPaying (.cb "pm:x")
      = ⟨some .paymentMethod, scratchPaying, some msgInvalidPayment⟩ ∧
    convStep envNoCC (some .costCenter) scratchPaying (.cb "cc:abc")
      = ⟨some .costCenter, scratchPaying, some msgInvalidCostCenter⟩ ∧
    convStep envNoCC (some .dueDate) scratchPaying (.msg "31/02/2024")
      = ⟨some .dueDate, scratchPaying, some msgInvalidDate⟩ :=
  ⟨(c8_invalid_input_amended envNoCC scratchPaying "cat:99" "99" "x").1
      (by decide) (Or.inr (fun cid hc => by
        rw [show pyInt "99" = some 99 from by decide] at hc
        injection hc with hc
        subst hc
        decide)),
   (c8_invalid_input_amended envNoCC scratchPaying "pm:x" "x" "x").2.1
      (by decide) (Or.inl (by decide)),
   (c8_invalid_input_amended envNoCC scratchPaying "cc:abc" "abc" "x").2.2.1
      (by decide) (by decide) (by decide),
   (c8_invalid_input_amended envNoCC scratchPaying "d" "d" "31/02/2024").2.2.2.2.1
      (by decide)⟩

/-- **C8, counterexample to the frozen claim.**  In the cost-center state, a
selection whose integer id (7) is *not* in the store's listing is not
rejected: the conversation advances to the payment-method state and the
bogus id is stored in the scratch (with a `None` label). -/
theorem c8_cost_center_cex :
    convStep envNoCC (some .costCenter) emptyScratch (.cb "cc:7")
      = ⟨some .paymentMethod, scratchCC7, some msgChoosePayment⟩ ∧
    some ConvState.paymentMethod ≠ some ConvState.costCenter ∧
    scratchCC7 ≠ emptyScratch ∧
    envNoCC.costCenters.find? (fun c => c.1 = 7) = none := by
  refine ⟨by decide, by decide, by decide, by decide⟩

/-! ### Claim C9: scratch lifecycle -/

/-- **C6, counterexample to the frozen claim.**  `"1,234"` parses
successfully (to 1.234), but formatting rounds to `"1,23"`, which re-parses
to 1.23 ≠ 1.234: parse ∘ format ∘ parse ≠ parse. -/
theorem c6_roundtrip_cex :
    parseMoney "1,234" = .ok (some (.fin false 1234 (-3))) ∧
    formatBRL (.fin false 1234 (-3)) = "1,23" ∧
    parseMoney "1,23" = .ok (some (.fin false 123 (-2))) ∧
    (PyDec.fin false 123 (-2)).val ≠ (PyDec.fin false 1234 (-3)).val := by
  refine ⟨by decide, by decide, by decide, ?_⟩
  norm_num [PyDec.val, finMag, show Int.toNat 2 = 2 from rfl,
    show Int.toNat 3 = 3 from rfl]

end Financeiro
